import Mathlib

/-
Verification of the session-log record model of the irmago client
(`irmaclient` log entries), its lazy request reconstruction, the three
derived views, the atomic file writer (`internal/fs`), and the legacy
session-info key decoding (`protocol/messages.go`).

The Go code is shallowly embedded: structs become Lean structures, the
mutable per-record request cache becomes an explicit slot threaded through
`SessionRequest`, interface values become inductive sums, and Go errors and
runtime panics become an explicit `GoErr` sum.  JSON (de)serialization of
the request types by the external `encoding/json` library is modelled by an
injective encoding (`RawMessage.enc`) together with a `nullLit` literal
(the marshalling of a nil interface) and a `malformed` constructor for byte
strings that are not valid JSON; decoding a valid encoding of the shape
selected by the record kind recovers the encoded value, as the Go library
does for these plain data structs.
-/

set_option autoImplicit false

namespace Irmago

/-- A Go error or runtime panic, as surfaced to the caller. -/
inductive GoErr where
  | goError (msg : String)
  | goPanic (msg : String)
  deriving DecidableEq

/-- Modelled from the spec: a disjunction is a set of alternative attribute
choices a verifier will accept for one requested item (the irmago
`AttributeDisjunction`, not present under src/). -/
abbrev AttributeDisjunction := List String

/-- Modelled from the spec: the list of attribute disjunctions a request asks
disclosure of (irmago `AttributeDisjunctionList`). -/
abbrev AttributeDisjunctionList := List AttributeDisjunction

/-- Modelled from the spec: the irmago `DisclosureRequest` (not under src/),
carrying the disjunctions to disclose. -/
structure DisclosureRequestData where
  content : AttributeDisjunctionList
  deriving DecidableEq

/-- Modelled from the spec: the irmago `SignatureRequest` (not under src/),
carrying disjunctions plus the message to sign, a nonce, a context and an
optional external timestamp. -/
structure SignatureRequestData where
  content : AttributeDisjunctionList
  message : String
  nonce : Int
  context : Int
  timestamp : Option Nat
  deriving DecidableEq

/-- Modelled from the spec: one credential to be issued in an issuance
request (type plus attribute values). -/
structure CredentialRequestData where
  credType : String
  attrs : List (String × String)
  deriving DecidableEq

/-- Modelled from the spec: the irmago `IssuanceRequest` (not under src/),
carrying the credentials to issue and the disjunctions to disclose. -/
structure IssuanceRequestData where
  credentials : List CredentialRequestData
  disclose : AttributeDisjunctionList
  deriving DecidableEq

/-- The irmago `SessionRequest` interface: one of the three concrete request
shapes. -/
inductive SessionRequest where
  | disclosure (d : DisclosureRequestData)
  | signature (s : SignatureRequestData)
  | issuance (i : IssuanceRequestData)
  deriving DecidableEq

/-- The concrete dynamic shape of a request value. -/
inductive ReqShape where
  | disclosure
  | signature
  | issuance
  deriving DecidableEq

def SessionRequest.shape : SessionRequest → ReqShape
  | .disclosure _ => .disclosure
  | .signature _ => .signature
  | .issuance _ => .issuance

/-- `ToDisclose` of the request interface: the disjunctions the session
requested disclosure of. -/
def SessionRequest.ToDisclose : SessionRequest → AttributeDisjunctionList
  | .disclosure d => d.content
  | .signature s => s.content
  | .issuance i => i.disclose

/-- The `json.RawMessage` stored in a log entry: either the encoding of a
request value, the literal `null` (marshalling of a nil interface), or bytes
that are not valid JSON. -/
inductive RawMessage where
  | enc (r : SessionRequest)
  | nullLit
  | malformed (bytes : String)
  deriving DecidableEq

/-- `json.Marshal` of the (possibly nil) request interface held by a record;
marshalling these plain data structs cannot fail, and a nil interface
marshals to `null`. -/
def jsonMarshalRequest : Option SessionRequest → RawMessage
  | none => .nullLit
  | some r => .enc r

/-- `json.Unmarshal` of raw bytes into an existing request value `target`:
a nil byte slice is an error, `null` leaves the target unchanged without
error, a valid encoding of the target's shape replaces the target by the
encoded value, and anything else is a decode error. -/
def jsonUnmarshalRequest (raw : Option RawMessage) (target : SessionRequest) :
    Except GoErr SessionRequest :=
  match raw with
  | none => .error (.goError "unexpected end of JSON input")
  | some (.enc r) =>
      if r.shape = target.shape then .ok r
      else .error (.goError "json: cannot unmarshal request of another shape")
  | some .nullLit => .ok target
  | some (.malformed _) => .error (.goError "invalid character in request bytes")

/-- The irmago `Disclosure` payload: a list of attribute proofs (proof atoms
kept opaque). -/
structure Disclosure where
  proofs : List String
  deriving DecidableEq

/-- Modelled from the spec: the irmago `IssueCommitmentMessage` (not under
src/), an issuance commitment with embedded disclosure proofs. -/
structure IssueCommitmentMessage where
  proofs : List String
  deriving DecidableEq

/-- Modelled from the spec: `IssueCommitmentMessage.Disclosure()` exposes the
embedded disclosure proofs as a `Disclosure` payload. -/
def IssueCommitmentMessage.Disclosure (m : IssueCommitmentMessage) : Disclosure :=
  ⟨m.proofs⟩

/-- Modelled from the spec: the fixed protocol-context tag
`irma.SignedMessageLDContext` copied into Signing records. -/
def signedMessageLDContextTag : String := "https://irma.app/ld/signature/v2"

def actionRemoval : String := "removal"
def ActionDisclosing : String := "disclosing"
def ActionSigning : String := "signing"
def ActionIssuing : String := "issuing"

/-- The `LogEntry` struct.  `Type'` is the Go field `Type` (a Lean keyword).
The unexported cache field `request` holds, when non-nil, an allocation
identifier (modelling Go pointer identity) together with the cached value. -/
structure LogEntry where
  Type' : String
  Time : Nat
  Version : Option String
  Request : Option RawMessage
  request : Option (Nat × SessionRequest)
  Removed : List (String × List String)
  SignedMessage : String
  Timestamp : Option Nat
  SignedMessageLDContext : String
  IssueCommitment : Option IssueCommitmentMessage
  Disclosure : Option Disclosure
  deriving DecidableEq

/-- The record as stored and reloaded: the unexported cache field `request`
is not serialized, so a reloaded record carries an empty cache. -/
def LogEntry.persisted (e : LogEntry) : LogEntry := { e with request := none }

/-- Result of one call to `LogEntry.SessionRequest`: the returned
(request, error) pair, the updated record, the updated allocation counter,
and an instrumentation bit recording whether `json.Unmarshal` ran during the
call. -/
structure SessionRequestOut where
  result : Except GoErr (Option (Nat × SessionRequest))
  entry : LogEntry
  nextId : Nat
  reparsed : Bool

/-- Tail of `LogEntry.SessionRequest` after the cache slot holds `c`:
`json.Unmarshal([]byte(entry.Request), entry.request)` followed by the
return.  The allocation (or cached pointer) stays in the slot even when the
unmarshal fails, exactly as in the source, where the assignment to
`entry.request` precedes the unmarshal. -/
def LogEntry.SessionRequestAux (entry : LogEntry) (c : Nat × SessionRequest)
    (nid : Nat) : SessionRequestOut :=
  match jsonUnmarshalRequest entry.Request c.2 with
  | .error e => ⟨.error e, { entry with request := some c }, nid, true⟩
  | .ok r => ⟨.ok (some (c.1, r)), { entry with request := some (c.1, r) }, nid, true⟩

/-- `LogEntry.SessionRequest()`: if the cache is nil, allocate an empty
request of the shape selected by the kind (returning `(nil, nil)` for any
other kind, removal included); then unconditionally unmarshal the stored
raw request into the cached instance and return it. -/
def LogEntry.SessionRequest (entry : LogEntry) (nextId : Nat) : SessionRequestOut :=
  match entry.request with
  | some c => entry.SessionRequestAux c nextId
  | none =>
      if entry.Type' = ActionDisclosing then
        entry.SessionRequestAux (nextId, .disclosure ⟨[]⟩) (nextId + 1)
      else if entry.Type' = ActionSigning then
        entry.SessionRequestAux (nextId, .signature ⟨[], "", 0, 0, none⟩) (nextId + 1)
      else if entry.Type' = ActionIssuing then
        entry.SessionRequestAux (nextId, .issuance ⟨[], []⟩) (nextId + 1)
      else ⟨.ok none, entry, nextId, false⟩

/-- `LogEntry.setSessionRequest()`: marshal the cached request into the
stored raw form; marshalling these data structs cannot fail. -/
def LogEntry.setSessionRequest (entry : LogEntry) : Except GoErr LogEntry :=
  .ok { entry with Request := some (jsonMarshalRequest (entry.request.map Prod.snd)) }

/-- Modelled from the spec: the part of the session engine state consumed by
`createLogEntry` — the session action, protocol version and structured
request (not under src/). -/
structure Session where
  Action : String
  Version : Option String
  request : Option (Nat × SessionRequest)

/-- The dynamic value of the `response interface{}` argument of
`createLogEntry`. -/
inductive Response where
  | disclosure (d : Disclosure)
  | issueCommitment (m : IssueCommitmentMessage)
  | nilResponse
  deriving DecidableEq

/-- `session.createLogEntry(response)`: build the record, encode the request
into the raw form, then fill the kind-specific payload.  Failed type
assertions on the request or response are Go panics. -/
def createLogEntry (session : Session) (response : Response) (now : Nat) :
    Except GoErr LogEntry :=
  let entry0 : LogEntry :=
    { Type' := session.Action, Time := now, Version := session.Version
      Request := none, request := session.request
      Removed := [], SignedMessage := "", Timestamp := none
      SignedMessageLDContext := "", IssueCommitment := none, Disclosure := none }
  match entry0.setSessionRequest with
  | .error e => .error e
  | .ok entry1 =>
      if entry1.Type' = actionRemoval then .ok entry1
      else if entry1.Type' = ActionSigning then
        match session.request with
        | some (_, .signature s) =>
            let entry2 := { entry1 with
              SignedMessage := s.message, Timestamp := s.timestamp
              SignedMessageLDContext := signedMessageLDContextTag }
            match response with
            | .disclosure d => .ok { entry2 with Disclosure := some d }
            | _ => .error (.goPanic "interface conversion: response is not a Disclosure")
        | _ => .error (.goPanic "interface conversion: request is not a SignatureRequest")
      else if entry1.Type' = ActionDisclosing then
        match response with
        | .disclosure d => .ok { entry1 with Disclosure := some d }
        | _ => .error (.goPanic "interface conversion: response is not a Disclosure")
      else if entry1.Type' = ActionIssuing then
        match response with
        | .issueCommitment m => .ok { entry1 with IssueCommitment := some m }
        | _ => .error (.goPanic "interface conversion: response is not an IssueCommitmentMessage")
      else .error (.goError "Invalid log type")

/-- A disclosed (credential, attribute) reveal pair as produced by the
external extraction. -/
structure DisclosedAttribute where
  id : String
  value : String
  deriving DecidableEq

/-- The external descriptor service consumed by the derived views: the
`irma.Configuration` methods `Disclosure.DisclosedAttributes` and
`IssuanceRequest.GetCredentialInfoList`, kept abstract as function fields
(their code is outside this core). -/
structure Configuration where
  disclosedAttributes :
    Option Disclosure → AttributeDisjunctionList → Except GoErr (List DisclosedAttribute)
  getCredentialInfoList :
    IssuanceRequestData → Option String → Except GoErr (List String)

def nilDerefMsg : String := "runtime error: invalid memory address or nil pointer dereference"

/-- `LogEntry.GetDisclosedCredentials(conf)`: removal records short-circuit to
an empty list; otherwise reconstruct the request, take its disjunctions
(dereferencing a nil request is a Go panic), select the proof payload and
delegate extraction to the descriptor service. -/
def LogEntry.GetDisclosedCredentials (entry : LogEntry) (conf : Configuration)
    (nextId : Nat) : Except GoErr (List DisclosedAttribute) :=
  if entry.Type' = actionRemoval then .ok []
  else
    match (entry.SessionRequest nextId).result with
    | .error e => .error e
    | .ok none => .error (.goPanic nilDerefMsg)
    | .ok (some (_, request)) =>
        let disjunctions := request.ToDisclose
        if entry.Type' = ActionIssuing then
          match entry.IssueCommitment with
          | none => .error (.goPanic nilDerefMsg)
          | some m => conf.disclosedAttributes (some m.Disclosure) disjunctions
        else conf.disclosedAttributes entry.Disclosure disjunctions

/-- `LogEntry.GetIssuedCredentials(conf)`: non-issuing records return an
empty list without error; issuing records reconstruct the request, cast it
to issuance shape (a failed cast is a Go panic) and delegate to the
descriptor service. -/
def LogEntry.GetIssuedCredentials (entry : LogEntry) (conf : Configuration)
    (nextId : Nat) : Except GoErr (List String) :=
  if entry.Type' ≠ ActionIssuing then .ok []
  else
    match (entry.SessionRequest nextId).result with
    | .error e => .error e
    | .ok none => .error (.goPanic "interface conversion: request is nil")
    | .ok (some (_, request)) =>
        match request with
        | .issuance i => conf.getCredentialInfoList i entry.Version
        | _ => .error (.goPanic "interface conversion: request is not an IssuanceRequest")

/-- The reassembled `irma.SignedMessage` artifact. -/
structure SignedMessage where
  LDContext : String
  Signature : List String
  Nonce : Int
  Context : Int
  Message : String
  Timestamp : Option Nat
  deriving DecidableEq

/-- `LogEntry.GetSignedMessage()`: non-signing records return absence without
error; signing records reconstruct the request, cast it to signature shape
and reassemble the artifact from the stored payload and the request's nonce
and context (reading `Proofs` from a nil disclosure pointer is a Go panic). -/
def LogEntry.GetSignedMessage (entry : LogEntry) (nextId : Nat) :
    Except GoErr (Option Irmago.SignedMessage) :=
  if entry.Type' ≠ ActionSigning then .ok none
  else
    match (entry.SessionRequest nextId).result with
    | .error e => .error e
    | .ok none => .error (.goPanic "interface conversion: request is nil")
    | .ok (some (_, request)) =>
        match request with
        | .signature s =>
            match entry.Disclosure with
            | none => .error (.goPanic nilDerefMsg)
            | some d =>
                .ok (some ⟨entry.SignedMessageLDContext, d.proofs, s.nonce, s.context,
                  entry.SignedMessage, entry.Timestamp⟩)
        | _ => .error (.goPanic "interface conversion: request is not a SignatureRequest")

/-
Atomic file writer (`internal/fs/fs.go`).  The filesystem is a map from
path strings to byte contents; random-byte acquisition, the temporary-file
write and the rename are given outcome oracles so that every failure path
of the source can be examined.  `ioutil.WriteFile` may fail before opening
the file (nothing written) or after a partial write (partial content left
at the path), per its POSIX semantics.
-/

abbrev FileSystem := String → Option (List Nat)

/-- The characters before the last slash of a path, `none` when it has no
slash. -/
def beforeLastSlash : List Char → Option (List Char)
  | [] => none
  | c :: cs =>
      match beforeLastSlash cs with
      | some rest => some (c :: rest)
      | none => if c = '/' then some [] else none

/-- Go `path.Dir` restricted to already-clean paths: everything before the
final slash, `"."` when the path has no slash. -/
def pathDir (p : String) : String :=
  match beforeLastSlash p.data with
  | some pre => String.mk pre
  | none => "."

def hexDigit (n : Nat) : Char :=
  if n < 10 then Char.ofNat (48 + n) else Char.ofNat (87 + n)

def hexEncodeByte (b : Nat) : String :=
  String.mk [hexDigit ((b / 16) % 16), hexDigit (b % 16)]

/-- Go `hex.EncodeToString`: two lowercase hex digits per byte. -/
def hexEncodeToString (bs : List Nat) : String :=
  String.join (bs.map hexEncodeByte)

/-- Outcome oracle for one `ioutil.WriteFile` call. -/
inductive WriteOutcome where
  | ok
  | openFail (msg : String)
  | interrupted (written : List Nat) (msg : String)
  deriving DecidableEq

/-- `ioutil.WriteFile(p, content, 0600)` under a given outcome: full write,
failure before the file is touched, or an interrupted write leaving partial
content at `p`. -/
def ioutilWriteFile (fs : FileSystem) (p : String) (content : List Nat) :
    WriteOutcome → Option String × FileSystem
  | .ok => (none, fun q => if q = p then some content else fs q)
  | .openFail msg => (some msg, fs)
  | .interrupted written msg => (some msg, fun q => if q = p then some written else fs q)

/-- `os.Rename(src, dst)`: on success the content at `src` moves to `dst`
(atomic replace); on failure the filesystem is unchanged. -/
def osRename (fs : FileSystem) (src dst : String) (ok : Bool) :
    Option String × FileSystem :=
  if ok then
    (none, fun q => if q = dst then fs src else if q = src then none else fs q)
  else (some "rename failed", fs)

/-- Outcome oracle for one `SaveFile` call: the result of `rand.Read` (16
random bytes or an error), the write outcome, and whether the rename
succeeds. -/
structure SaveOutcome where
  rand : Except String (List Nat)
  write : WriteOutcome
  renameOk : Bool

/-- `fs.SaveFile(filepath, content)`: derive the directory, draw a random
temporary name, write the content to the temporary path, then rename it over
the target.  Each failure returns the error at once. -/
def SaveFile (fs : FileSystem) (filepath : String) (content : List Nat)
    (o : SaveOutcome) : Option String × FileSystem :=
  let dir := pathDir filepath
  match o.rand with
  | .error e => (some e, fs)
  | .ok randBytes =>
      let tempfilename := hexEncodeToString randBytes
      match ioutilWriteFile fs (dir ++ "/" ++ tempfilename) content o.write with
      | (some e, fs1) => (some e, fs1)
      | (none, fs1) => osRename fs1 (dir ++ "/" ++ tempfilename) filepath o.renameOk

/-
Legacy session-info key decoding (`protocol/messages.go`).  The generic
JSON layer of `encoding/json` is embedded as the `JVal` tree (numbers kept
as integers; the claims do not involve fractional values).  Decoding the
`keys` field of a `jsonSessionInfo` into `[][]interface{}` requires the
field to be an array of arrays (`null` decodes to an empty slice); the loop
of `SessionInfo.UnmarshalJSON` then inspects the first two elements of each
row, indexing past a row's end being a Go panic.
-/

inductive JVal where
  | null
  | boolean (b : Bool)
  | num (n : Int)
  | str (s : String)
  | arr (xs : List JVal)
  | obj (fields : List (String × JVal))

/-- Lookup in a decoded JSON object (`map[string]interface{}`): a duplicated
key keeps its last occurrence, as in Go's decoder. -/
def objLookup (fields : List (String × JVal)) (k : String) : Option JVal :=
  fields.foldl (fun acc p => if p.1 = k then some p.2 else acc) none

/-- Modelled from the spec: `irmago.NewIssuerIdentifier` wraps the identifier
string (not under src/). -/
def NewIssuerIdentifier (s : String) : String := s

/-- Insertion into the reconstructed `map[IssuerIdentifier]int`: overwrite an
existing key, append a new one. -/
def insertKey (m : List (String × Int)) (k : String) (v : Int) : List (String × Int) :=
  if m.any (fun p => p.1 = k) then m.map (fun p => if p.1 = k then (k, v) else p)
  else m ++ [(k, v)]

/-- Decoding one element of the `keys` list into a `[]interface{}` row:
only arrays (and `null`, giving a nil slice) are accepted by the generic
decoder. -/
def asInnerArr : JVal → Except GoErr (List JVal)
  | .arr xs => .ok xs
  | .null => .ok []
  | _ => .error (.goError "json: cannot unmarshal value into field of type list")

/-- One iteration of the loop of `SessionInfo.UnmarshalJSON`: take `item[0]`
(panic when the row is empty), require it to be an object, require its
`identifier` field to be a string, take `item[1]` (panic when the row has one
element), require it to be a number, and insert the pair into the map. -/
def decodeKeyItem (m : List (String × Int)) (item : List JVal) :
    Except GoErr (List (String × Int)) :=
  match item.get? 0 with
  | none => .error (.goPanic "runtime error: index out of range")
  | some (.obj idmap) =>
      match objLookup idmap "identifier" with
      | some (.str idstr) =>
          match item.get? 1 with
          | none => .error (.goPanic "runtime error: index out of range")
          | some (.num counter) => .ok (insertKey m (NewIssuerIdentifier idstr) counter)
          | some _ => .error (.goError "Failed to deserialize session info")
      | _ => .error (.goError "Failed to deserialize session info")
  | some _ => .error (.goError "Failed to deserialize session info")

/-- First phase of `UnmarshalJSON` for the `keys` field: the generic decode
of every list element into a `[]interface{}` row; any element that is not an
array fails the whole decode before the loop runs. -/
def decodeRowsPhase : List JVal → Except GoErr (List (List JVal))
  | [] => .ok []
  | item :: rest =>
      match asInnerArr item with
      | .error e => .error e
      | .ok row =>
          match decodeRowsPhase rest with
          | .error e => .error e
          | .ok rows => .ok (row :: rows)

/-- Second phase: the loop of `SessionInfo.UnmarshalJSON` over the decoded
rows, threading the reconstructed map. -/
def foldKeysPhase : List (List JVal) → List (String × Int) → Except GoErr (List (String × Int))
  | [], m => .ok m
  | row :: rest, m =>
      match decodeKeyItem m row with
      | .error e => .error e
      | .ok m' => foldKeysPhase rest m'

/-- The `keys` part of `SessionInfo.UnmarshalJSON`: decode the field into a
list of rows, then fold the loop body over the rows starting from an empty
map. -/
def UnmarshalJSONKeys (v : JVal) : Except GoErr (List (String × Int)) :=
  match v with
  | .null => .ok []
  | .arr items =>
      match decodeRowsPhase items with
      | .error e => .error e
      | .ok rows => foldKeysPhase rows []
  | _ => .error (.goError "json: cannot unmarshal value into field of type list")

/-- A list item whose first two elements have the wire shape described by
the claim — an identifier object and a number — followed by arbitrary extra
elements (`extra := []` gives the exact two-element pair). -/
def encodeKeyItem (p : String × Int) (extra : List JVal) : JVal :=
  .arr ([.obj [("identifier", .str p.1)], .num p.2] ++ extra)

/-- A keys list of such items, one per (pair, extra-suffix) entry. -/
def encodeKeys (pes : List ((String × Int) × List JVal)) : JVal :=
  .arr (pes.map fun pe => encodeKeyItem pe.1 pe.2)

/-- The associative container the decoder reconstructs from a pair list. -/
def buildKeys (ps : List (String × Int)) : List (String × Int) :=
  ps.foldl (fun m p => insertKey m p.1 p.2) []

/-- The (identifier, counter) value of a row whose first two elements have
the required shapes, and `none` for any other row. -/
def keyItemValue (item : List JVal) : Option (String × Int) :=
  match item.get? 0 with
  | some (.obj idmap) =>
      match objLookup idmap "identifier" with
      | some (.str idstr) =>
          match item.get? 1 with
          | some (.num counter) => some (idstr, counter)
          | _ => none
      | _ => none
  | _ => none

/-
Theorems.
-/

/-- Modelled from the spec: the valid (kind, request, response) combinations
handed to log-record construction — the request shape and the response shape
both match the kind, and a removal event has no request and no response. -/
def ValidCombo (kind : String) (req? : Option SessionRequest) (resp : Response) : Prop :=
  (kind = actionRemoval ∧ req? = none ∧ resp = .nilResponse)
  ∨ (kind = ActionDisclosing ∧ (∃ d, req? = some (.disclosure d)) ∧ ∃ x, resp = .disclosure x)
  ∨ (kind = ActionSigning ∧ (∃ s, req? = some (.signature s)) ∧ ∃ x, resp = .disclosure x)
  ∨ (kind = ActionIssuing ∧ (∃ i, req? = some (.issuance i)) ∧ ∃ x, resp = .issueCommitment x)

/-- C1: for every valid (kind, request, response) combination, constructing
the record (which encodes the request into the raw form) and reconstructing
the structured request from the stored record yields a request whose
disclosure disjunctions equal those of the original request. -/
theorem c1_construct_reconstruct_roundtrip (kind : String) (req? : Option SessionRequest)
    (resp : Response) (ver : Option String) (id now n : Nat)
    (hv : ValidCombo kind req? resp) :
    ∃ entry, createLogEntry ⟨kind, ver, req?.map (fun r => (id, r))⟩ resp now = .ok entry ∧
      ∃ r?, (entry.persisted.SessionRequest n).result = .ok r? ∧
        r?.map (fun p => p.2.ToDisclose) = req?.map SessionRequest.ToDisclose := by
  rcases hv with ⟨hk, hr, hx⟩ | ⟨hk, ⟨d, hr⟩, x, hx⟩ | ⟨hk, ⟨s, hr⟩, x, hx⟩ | ⟨hk, ⟨i, hr⟩, x, hx⟩ <;>
    subst hk <;> subst hr <;> subst hx <;> exact ⟨_, rfl, _, rfl, rfl⟩

/-- Witness for C1 at a concrete disclosing session. -/
theorem c1_construct_reconstruct_roundtrip_witness :
    ValidCombo ActionDisclosing (some (.disclosure ⟨[["attr"]]⟩)) (.disclosure ⟨["proof"]⟩) ∧
    (∃ entry,
      createLogEntry ⟨ActionDisclosing, none,
          (some (SessionRequest.disclosure ⟨[["attr"]]⟩)).map (fun r => (7, r))⟩
        (.disclosure ⟨["proof"]⟩) 0 = .ok entry ∧
      ∃ r?, (entry.persisted.SessionRequest 3).result = .ok r? ∧
        r?.map (fun p => p.2.ToDisclose) =
          (some (SessionRequest.disclosure ⟨[["attr"]]⟩)).map SessionRequest.ToDisclose) := by
  have hv : ValidCombo ActionDisclosing (some (.disclosure ⟨[["attr"]]⟩)) (.disclosure ⟨["proof"]⟩) :=
    Or.inr (Or.inl ⟨rfl, ⟨_, rfl⟩, _, rfl⟩)
  exact ⟨hv, c1_construct_reconstruct_roundtrip _ _ _ none 7 0 3 hv⟩

/-- C2: a removal-kind record yields an empty disclosed-attribute list, an
empty issued-credential list and an absent signed message, each without
error, whatever its payload content. -/
theorem c2_removal_views_empty (entry : LogEntry) (conf : Configuration)
    (n m k : Nat) (h : entry.Type' = actionRemoval) :
    entry.GetDisclosedCredentials conf n = .ok [] ∧
    entry.GetIssuedCredentials conf m = .ok [] ∧
    entry.GetSignedMessage k = .ok none := by
  refine ⟨?_, ?_, ?_⟩ <;>
    simp [LogEntry.GetDisclosedCredentials, LogEntry.GetIssuedCredentials,
      LogEntry.GetSignedMessage, h, actionRemoval, ActionIssuing, ActionSigning]

def conf0 : Configuration := ⟨fun _ _ => .ok [], fun _ _ => .ok []⟩

/-- A removal record with a non-trivial payload in every slot. -/
def removalPayloadEntry : LogEntry :=
  { Type' := actionRemoval, Time := 4, Version := some "2.4"
    Request := some (.enc (.signature ⟨[["a"]], "m", 1, 2, none⟩))
    request := some (3, .signature ⟨[["a"]], "m", 1, 2, none⟩)
    Removed := [("irma-demo.cred", ["name"])], SignedMessage := "stray"
    Timestamp := some 9, SignedMessageLDContext := "ctx"
    IssueCommitment := some ⟨["ip"]⟩, Disclosure := some ⟨["dp"]⟩ }

/-- Witness for C2 at a removal record with non-empty payload fields. -/
theorem c2_removal_views_empty_witness :
    removalPayloadEntry.GetDisclosedCredentials conf0 0 = .ok [] ∧
    removalPayloadEntry.GetIssuedCredentials conf0 0 = .ok [] ∧
    removalPayloadEntry.GetSignedMessage 0 = .ok none :=
  c2_removal_views_empty removalPayloadEntry conf0 0 0 0 rfl

/-- C5: for a signing-kind record constructed from a signature request, the
derived signed-message artifact's message bytes, nonce and context are
value-equal to those of the original signature request. -/
theorem c5_signed_message_exact (s : SignatureRequestData) (d : Disclosure)
    (ver : Option String) (id now n : Nat) :
    ∃ entry,
      createLogEntry ⟨ActionSigning, ver, some (id, .signature s)⟩ (.disclosure d) now
        = .ok entry ∧
      ∃ sm, entry.persisted.GetSignedMessage n = .ok (some sm) ∧
        sm.Message = s.message ∧ sm.Nonce = s.nonce ∧ sm.Context = s.context :=
  ⟨_, rfl, _, rfl, rfl, rfl, rfl⟩

/-- C7: when the atomic save returns without error, reading the target path
afterwards returns exactly the bytes written. -/
theorem c7_save_then_read (fs : FileSystem) (p : String) (c : List Nat)
    (o : SaveOutcome) (h : (SaveFile fs p c o).1 = none) :
    (SaveFile fs p c o).2 p = some c := by
  unfold SaveFile at h ⊢
  cases hr : o.rand with
  | error e => simp [hr] at h
  | ok bs =>
      cases hw : o.write with
      | openFail msg => simp [hr, hw, ioutilWriteFile] at h
      | interrupted w msg => simp [hr, hw, ioutilWriteFile] at h
      | ok =>
          by_cases hro : o.renameOk
          · simp [ioutilWriteFile, osRename, hw, hro]
          · simp [hr, hw, hro, ioutilWriteFile, osRename] at h

/-- Witness for C7 at a concrete successful save. -/
theorem c7_save_then_read_witness :
    (SaveFile (fun _ => none) "a/b" [4, 5] ⟨.ok (List.replicate 16 0), .ok, true⟩).2 "a/b"
      = some [4, 5] :=
  c7_save_then_read (fun _ => none) "a/b" [4, 5] ⟨.ok (List.replicate 16 0), .ok, true⟩ rfl

/-- The write step of a save fails: either no random bytes could be obtained
or the temporary-file write itself fails. -/
def SaveOutcome.writeStepFails (o : SaveOutcome) : Prop :=
  (∃ e, o.rand = .error e) ∨ o.write ≠ .ok

/-- The random temporary name does not reuse the target path itself. -/
def SaveOutcome.noCollision (o : SaveOutcome) (filepath : String) : Prop :=
  ∀ bs, o.rand = .ok bs → pathDir filepath ++ "/" ++ hexEncodeToString bs ≠ filepath

/-- C6 (amended): when the write step of the atomic save fails and the random
temporary name differs from the target path, the target's prior content (or
absence) is unchanged and the error is surfaced to the caller. -/
theorem c6_write_failure_frame (fs : FileSystem) (p : String) (c : List Nat)
    (o : SaveOutcome) (hf : o.writeStepFails) (hc : o.noCollision p) :
    (SaveFile fs p c o).1.isSome = true ∧ (SaveFile fs p c o).2 p = fs p := by
  unfold SaveFile
  cases hr : o.rand with
  | error e => simp
  | ok bs =>
      have hne : ¬ p = pathDir p ++ "/" ++ hexEncodeToString bs :=
        fun hp => hc bs hr hp.symm
      rcases hf with ⟨e, he⟩ | hw
      · rw [hr] at he; cases he
      · cases hwo : o.write with
        | ok => exact absurd hwo hw
        | openFail msg => simp [ioutilWriteFile]
        | interrupted w msg => simp [ioutilWriteFile, hne]

/-- Witness for the amended C6: a failing random-byte draw surfaces the error
and leaves the target's prior content in place. -/
theorem c6_write_failure_frame_witness :
    (SaveFile (fun q => if q = "a/b" then some [1] else none) "a/b" [9]
        ⟨.error "entropy source failed", .ok, true⟩).1.isSome = true ∧
    (SaveFile (fun q => if q = "a/b" then some [1] else none) "a/b" [9]
        ⟨.error "entropy source failed", .ok, true⟩).2 "a/b"
      = (fun q => if q = "a/b" then some [1] else none : FileSystem) "a/b" :=
  c6_write_failure_frame _ "a/b" [9] ⟨.error "entropy source failed", .ok, true⟩
    (Or.inl ⟨"entropy source failed", rfl⟩) (fun _ h => nomatch h)

/-- A target path whose final component is a 32-character hex string, the
prior filesystem holding content `[1]` there, and an outcome in which the
random bytes hex-encode to exactly that component and the temporary-file
write is interrupted after partially writing `[9]`. -/
def collisionPath : String := "d/00000000000000000000000000000000"

def collisionFs : FileSystem := fun q => if q = collisionPath then some [1] else none

def collisionOutcome : SaveOutcome :=
  ⟨.ok (List.replicate 16 0), .interrupted [9] "disk full", true⟩

/-- C6 counterexample: the save fails during the temporary-file write step
and returns the error, yet the target path's prior content `[1]` has been
replaced by the partial write `[9]`, because the random temporary name
coincides with the target's final path component. -/
theorem c6_counterexample :
    (SaveFile collisionFs collisionPath [5, 5] collisionOutcome).1.isSome = true ∧
    collisionFs collisionPath = some [1] ∧
    (SaveFile collisionFs collisionPath [5, 5] collisionOutcome).2 collisionPath = some [9] :=
  ⟨rfl, rfl, rfl⟩

/-- A decode that produced `r` into some target produces `r` again when run
into `r` itself: re-parsing an unchanged raw request is idempotent. -/
theorem jsonUnmarshalRequest_idem (raw : Option RawMessage) (t r : SessionRequest)
    (h : jsonUnmarshalRequest raw t = .ok r) :
    jsonUnmarshalRequest raw r = .ok r := by
  cases raw with
  | none => simp [jsonUnmarshalRequest] at h
  | some m =>
      cases m with
      | enc q =>
          by_cases hs : q.shape = t.shape
          · simp [jsonUnmarshalRequest, hs] at h
            subst h
            simp [jsonUnmarshalRequest]
          · simp [jsonUnmarshalRequest, hs] at h
      | nullLit => rfl
      | malformed s => simp [jsonUnmarshalRequest] at h

/-- `SessionRequestAux` under a successful unmarshal. -/
theorem sessionRequestAux_of_unmarshal_ok (e : LogEntry) (c : Nat × SessionRequest)
    (m : Nat) (r' : SessionRequest)
    (hu : jsonUnmarshalRequest e.Request c.2 = .ok r') :
    e.SessionRequestAux c m =
      ⟨.ok (some (c.1, r')), { e with request := some (c.1, r') }, m, true⟩ := by
  unfold LogEntry.SessionRequestAux
  rw [hu]

/-- A successful `SessionRequestAux` call pins down its whole output. -/
theorem sessionRequestAux_ok_elim (entry : LogEntry) (c : Nat × SessionRequest)
    (nid id : Nat) (r : SessionRequest)
    (h : (entry.SessionRequestAux c nid).result = .ok (some (id, r))) :
    id = c.1 ∧ jsonUnmarshalRequest entry.Request c.2 = .ok r ∧
      entry.SessionRequestAux c nid =
        ⟨.ok (some (c.1, r)), { entry with request := some (c.1, r) }, nid, true⟩ := by
  cases hu : jsonUnmarshalRequest entry.Request c.2 with
  | error e =>
      have hfail : entry.SessionRequestAux c nid =
          ⟨.error e, { entry with request := some c }, nid, true⟩ := by
        unfold LogEntry.SessionRequestAux
        rw [hu]
      rw [hfail] at h
      simp at h
  | ok r' =>
      have hok := sessionRequestAux_of_unmarshal_ok entry c nid r' hu
      rw [hok] at h
      simp at h
      obtain ⟨h1, h2⟩ := h
      subst h2
      exact ⟨h1.symm, rfl, hok⟩

/-- A `SessionRequest` call on a record whose cache already holds `(id, r)`
re-parses the raw request into the cached instance and, when the raw request
still decodes to `r`, returns the pointer-identical cached instance. -/
theorem sessionRequest_cached (e : LogEntry) (id : Nat) (r : SessionRequest) (m : Nat)
    (hc : e.request = some (id, r)) (hu : jsonUnmarshalRequest e.Request r = .ok r) :
    e.SessionRequest m =
      ⟨.ok (some (id, r)), { e with request := some (id, r) }, m, true⟩ := by
  have hcall : e.SessionRequest m = e.SessionRequestAux (id, r) m := by
    unfold LogEntry.SessionRequest
    rw [hc]
  rw [hcall, sessionRequestAux_of_unmarshal_ok e (id, r) m r hu]

/-- A successful `SessionRequest` call pins down the updated record and the
idempotence of the parse. -/
theorem sessionRequest_ok_shape (entry : LogEntry) (n id : Nat) (r : SessionRequest)
    (h : (entry.SessionRequest n).result = .ok (some (id, r))) :
    ∃ nid, entry.SessionRequest n =
        ⟨.ok (some (id, r)), { entry with request := some (id, r) }, nid, true⟩ ∧
      jsonUnmarshalRequest entry.Request r = .ok r := by
  cases hc : entry.request with
  | some c =>
      have hcall : entry.SessionRequest n = entry.SessionRequestAux c n := by
        unfold LogEntry.SessionRequest
        rw [hc]
      rw [hcall] at h
      obtain ⟨h1, h2, h3⟩ := sessionRequestAux_ok_elim entry c n id r h
      refine ⟨n, ?_, jsonUnmarshalRequest_idem _ _ _ h2⟩
      rw [hcall, h3, h1]
  | none =>
      by_cases hd : entry.Type' = ActionDisclosing
      · have hcall : entry.SessionRequest n =
            entry.SessionRequestAux (n, .disclosure ⟨[]⟩) (n + 1) := by
          unfold LogEntry.SessionRequest
          rw [hc]
          simp [hd, ActionDisclosing]
        rw [hcall] at h
        obtain ⟨h1, h2, h3⟩ :=
          sessionRequestAux_ok_elim entry (n, .disclosure ⟨[]⟩) (n + 1) id r h
        refine ⟨n + 1, ?_, jsonUnmarshalRequest_idem _ _ _ h2⟩
        rw [hcall, h3, h1]
      · by_cases hsg : entry.Type' = ActionSigning
        · have hcall : entry.SessionRequest n =
              entry.SessionRequestAux (n, .signature ⟨[], "", 0, 0, none⟩) (n + 1) := by
            unfold LogEntry.SessionRequest
            rw [hc]
            simp [hsg, ActionDisclosing, ActionSigning]
          rw [hcall] at h
          obtain ⟨h1, h2, h3⟩ :=
            sessionRequestAux_ok_elim entry (n, .signature ⟨[], "", 0, 0, none⟩) (n + 1) id r h
          refine ⟨n + 1, ?_, jsonUnmarshalRequest_idem _ _ _ h2⟩
          rw [hcall, h3, h1]
        · by_cases hi : entry.Type' = ActionIssuing
          · have hcall : entry.SessionRequest n =
                entry.SessionRequestAux (n, .issuance ⟨[], []⟩) (n + 1) := by
              unfold LogEntry.SessionRequest
              rw [hc]
              simp [hi, ActionDisclosing, ActionSigning, ActionIssuing]
            rw [hcall] at h
            obtain ⟨h1, h2, h3⟩ :=
              sessionRequestAux_ok_elim entry (n, .issuance ⟨[], []⟩) (n + 1) id r h
            refine ⟨n + 1, ?_, jsonUnmarshalRequest_idem _ _ _ h2⟩
            rw [hcall, h3, h1]
          · have hcall : entry.SessionRequest n = ⟨.ok none, entry, n, false⟩ := by
              unfold LogEntry.SessionRequest
              rw [hc]
              simp [hd, hsg, hi]
            rw [hcall] at h
            simp at h

/-- C3 (amended): after a first successful reconstruction, a second call on
the same record returns the pointer-identical cached instance with the same
value and allocates nothing new, but it does re-parse the raw request on the
way (the unmarshal runs on every call; the result is unchanged because the
raw request is immutable). -/
theorem c3_amended_cached_identity_but_reparsed (entry : LogEntry) (n id : Nat)
    (r : SessionRequest)
    (h : (entry.SessionRequest n).result = .ok (some (id, r))) :
    ((entry.SessionRequest n).entry.SessionRequest (entry.SessionRequest n).nextId).result
        = .ok (some (id, r)) ∧
    ((entry.SessionRequest n).entry.SessionRequest (entry.SessionRequest n).nextId).nextId
        = (entry.SessionRequest n).nextId ∧
    ((entry.SessionRequest n).entry.SessionRequest (entry.SessionRequest n).nextId).reparsed
        = true := by
  obtain ⟨nid, hshape, hu⟩ := sessionRequest_ok_shape entry n id r h
  have e1 : (entry.SessionRequest n).entry = { entry with request := some (id, r) } := by
    rw [hshape]
  have e2 : (entry.SessionRequest n).nextId = nid := by
    rw [hshape]
  rw [e1, e2, sessionRequest_cached { entry with request := some (id, r) } id r nid rfl hu]
  exact ⟨rfl, rfl, rfl⟩

/-- A disclosing record holding a well-formed raw request and an empty
cache. -/
def sampleDisclosingEntry : LogEntry :=
  { Type' := ActionDisclosing, Time := 0, Version := none
    Request := some (.enc (.disclosure ⟨[["age"]]⟩)), request := none
    Removed := [], SignedMessage := "", Timestamp := none
    SignedMessageLDContext := "", IssueCommitment := none, Disclosure := none }

/-- C3 counterexample: on a record whose first reconstruction succeeds, the
second reconstruction call still runs the unmarshal — it re-parses the raw
request instead of returning the cached instance without a parse. -/
theorem c3_counterexample :
    (sampleDisclosingEntry.SessionRequest 0).result
        = .ok (some (0, .disclosure ⟨[["age"]]⟩)) ∧
    ((sampleDisclosingEntry.SessionRequest 0).entry.SessionRequest
        (sampleDisclosingEntry.SessionRequest 0).nextId).reparsed = true :=
  ⟨rfl, rfl⟩

/-- Witness for the amended C3 at a concrete record. -/
theorem c3_amended_cached_identity_but_reparsed_witness :
    ((sampleDisclosingEntry.SessionRequest 0).entry.SessionRequest
        (sampleDisclosingEntry.SessionRequest 0).nextId).result
        = .ok (some (0, .disclosure ⟨[["age"]]⟩)) ∧
    ((sampleDisclosingEntry.SessionRequest 0).entry.SessionRequest
        (sampleDisclosingEntry.SessionRequest 0).nextId).nextId
        = (sampleDisclosingEntry.SessionRequest 0).nextId ∧
    ((sampleDisclosingEntry.SessionRequest 0).entry.SessionRequest
        (sampleDisclosingEntry.SessionRequest 0).nextId).reparsed = true :=
  c3_amended_cached_identity_but_reparsed sampleDisclosingEntry 0 0
    (.disclosure ⟨[["age"]]⟩) rfl

/-- The empty request instance the reconstruction allocates for each
request-bearing kind. -/
def emptyRequestFor (t : String) : Option SessionRequest :=
  if t = ActionDisclosing then some (.disclosure ⟨[]⟩)
  else if t = ActionSigning then some (.signature ⟨[], "", 0, 0, none⟩)
  else if t = ActionIssuing then some (.issuance ⟨[], []⟩)
  else none

/-- C4 (amended): on a request-bearing record with malformed raw request
bytes, reconstruction returns a decode error — never a silently-empty
request — but the freshly allocated empty request instance stays assigned to
the cache slot, and a subsequent call finds it, re-parses, and fails with
the same decode error. -/
theorem c4_amended_decode_error_caches_allocation (entry : LogEntry) (n : Nat) (bts : String)
    (hreq : entry.request = none)
    (hkind : entry.Type' = ActionDisclosing ∨ entry.Type' = ActionSigning ∨
      entry.Type' = ActionIssuing)
    (hraw : entry.Request = some (.malformed bts)) :
    (entry.SessionRequest n).result = .error (.goError "invalid character in request bytes") ∧
    (entry.SessionRequest n).entry.request
        = (emptyRequestFor entry.Type').map (fun r => (n, r)) ∧
    ((entry.SessionRequest n).entry.SessionRequest (entry.SessionRequest n).nextId).result
        = .error (.goError "invalid character in request bytes") := by
  rcases hkind with h | h | h <;>
    simp [LogEntry.SessionRequest, LogEntry.SessionRequestAux, jsonUnmarshalRequest,
      hreq, hraw, h, emptyRequestFor, ActionDisclosing, ActionSigning, ActionIssuing]

/-- A disclosing record whose raw request bytes are not valid JSON. -/
def sampleMalformedEntry : LogEntry :=
  { Type' := ActionDisclosing, Time := 0, Version := none
    Request := some (.malformed "not json"), request := none
    Removed := [], SignedMessage := "", Timestamp := none
    SignedMessageLDContext := "", IssueCommitment := none, Disclosure := none }

/-- C4 counterexample: on malformed raw request bytes the reconstruction
does return a decode error, but something *is* cached on the record — the
subsequent call finds a cached instance. -/
theorem c4_counterexample :
    (∃ msg, (sampleMalformedEntry.SessionRequest 0).result = .error (.goError msg)) ∧
    ((sampleMalformedEntry.SessionRequest 0).entry.request).isSome = true :=
  ⟨⟨"invalid character in request bytes", rfl⟩, rfl⟩

/-- Witness for the amended C4 at a concrete record. -/
theorem c4_amended_decode_error_caches_allocation_witness :
    (sampleMalformedEntry.SessionRequest 0).result
        = .error (.goError "invalid character in request bytes") ∧
    (sampleMalformedEntry.SessionRequest 0).entry.request
        = (emptyRequestFor sampleMalformedEntry.Type').map (fun r => (0, r)) ∧
    ((sampleMalformedEntry.SessionRequest 0).entry.SessionRequest
        (sampleMalformedEntry.SessionRequest 0).nextId).result
        = .error (.goError "invalid character in request bytes") :=
  c4_amended_decode_error_caches_allocation sampleMalformedEntry 0 "not json" rfl
    (Or.inl rfl) rfl

/-- C8 (amended): every record produced by log-record construction carries a
raw request — for Removal kinds too, where it holds the encoding of the nil
request (`null`), so presence of the raw request is not equivalent to the
kind differing from Removal. -/
theorem c8_amended_raw_request_always_present (session : Session) (resp : Response)
    (now : Nat) (entry : LogEntry)
    (h : createLogEntry session resp now = .ok entry) :
    entry.Request.isSome = true := by
  simp only [createLogEntry, LogEntry.setSessionRequest] at h
  repeat' split at h
  all_goals first
    | (injection h with h2; subst h2; rfl)
    | exact (Except.noConfusion h)

/-- The record produced by constructing a removal log entry from a session
with no request and no response. -/
def removalConstructedEntry : LogEntry :=
  { Type' := actionRemoval, Time := 0, Version := none
    Request := some .nullLit, request := none
    Removed := [], SignedMessage := "", Timestamp := none
    SignedMessageLDContext := "", IssueCommitment := none, Disclosure := none }

/-- C8 counterexample: a Removal-kind record produced by construction has a
present raw request (the `null` encoding), so the claimed equivalence fails
in the only-if direction. -/
theorem c8_counterexample :
    createLogEntry ⟨actionRemoval, none, none⟩ .nilResponse 0 = .ok removalConstructedEntry ∧
    removalConstructedEntry.Type' = actionRemoval ∧
    removalConstructedEntry.Request.isSome = true :=
  ⟨rfl, rfl, rfl⟩

/-- Witness for the amended C8 at the concrete removal construction. -/
theorem c8_amended_raw_request_always_present_witness :
    removalConstructedEntry.Request.isSome = true :=
  c8_amended_raw_request_always_present ⟨actionRemoval, none, none⟩ .nilResponse 0
    removalConstructedEntry rfl

/-- C9 (amended): a record whose kind is none of the four known values is
silently defaulted by two of the three views — the issued-credential view
returns an empty list and the signed-message view returns absence, each
without error — and the disclosed-attribute view does not reject it with an
error either: request reconstruction yields absence without error and the
view then dereferences the absent request, a runtime panic. -/
theorem c9_amended_unknown_kind_defaulted (entry : LogEntry) (conf : Configuration)
    (n m k : Nat)
    (h1 : entry.Type' ≠ ActionDisclosing) (h2 : entry.Type' ≠ ActionSigning)
    (h3 : entry.Type' ≠ ActionIssuing) (h4 : entry.Type' ≠ actionRemoval) :
    entry.GetIssuedCredentials conf n = .ok [] ∧
    entry.GetSignedMessage m = .ok none ∧
    (entry.request = none →
      entry.GetDisclosedCredentials conf k = .error (.goPanic nilDerefMsg)) := by
  refine ⟨?_, ?_, fun hreq => ?_⟩
  · simp [LogEntry.GetIssuedCredentials, h3]
  · simp [LogEntry.GetSignedMessage, h2]
  · simp [LogEntry.GetDisclosedCredentials, LogEntry.SessionRequest, h1, h2, h3, h4, hreq]

/-- A record with the unknown kind discriminant `"unknown"`. -/
def unknownKindEntry : LogEntry :=
  { Type' := "unknown", Time := 0, Version := none
    Request := some (.enc (.disclosure ⟨[["age"]]⟩)), request := none
    Removed := [], SignedMessage := "", Timestamp := none
    SignedMessageLDContext := "", IssueCommitment := none, Disclosure := some ⟨["p"]⟩ }

/-- C9 counterexample: on a record with the unknown discriminant `"unknown"`
the issued-credential view returns an empty list and the signed-message view
returns absence, both without any error — the record is silently defaulted,
not rejected. -/
theorem c9_counterexample :
    unknownKindEntry.Type' = "unknown" ∧
    unknownKindEntry.GetIssuedCredentials conf0 0 = .ok [] ∧
    unknownKindEntry.GetSignedMessage 0 = .ok none :=
  ⟨rfl, rfl, rfl⟩

/-- Witness for the amended C9 at the unknown-kind record. -/
theorem c9_amended_unknown_kind_defaulted_witness :
    unknownKindEntry.GetIssuedCredentials conf0 0 = .ok [] ∧
    unknownKindEntry.GetSignedMessage 0 = .ok none ∧
    (unknownKindEntry.request = none →
      unknownKindEntry.GetDisclosedCredentials conf0 0 = .error (.goPanic nilDerefMsg)) :=
  c9_amended_unknown_kind_defaulted unknownKindEntry conf0 0 0 0
    (by decide) (by decide) (by decide) (by decide)

/-- The `[]interface{}` row of a well-shaped key pair. -/
def keyRowOf (p : String × Int) : List JVal :=
  [JVal.obj [("identifier", JVal.str p.1)], JVal.num p.2]

theorem decodeRowsPhase_encoded (pes : List ((String × Int) × List JVal)) :
    decodeRowsPhase (pes.map fun pe => encodeKeyItem pe.1 pe.2)
      = .ok (pes.map fun pe => keyRowOf pe.1 ++ pe.2) := by
  induction pes with
  | nil => rfl
  | cons pe pes ih =>
      simp [decodeRowsPhase, encodeKeyItem, asInnerArr, keyRowOf] at ih ⊢
      rw [ih]

theorem foldKeysPhase_encoded (pes : List ((String × Int) × List JVal))
    (m : List (String × Int)) :
    foldKeysPhase (pes.map fun pe => keyRowOf pe.1 ++ pe.2) m
      = .ok (pes.foldl (fun acc pe => insertKey acc pe.1.1 pe.1.2) m) := by
  induction pes generalizing m with
  | nil => rfl
  | cons pe pes ih =>
      simp only [keyRowOf, List.cons_append, List.nil_append] at ih
      simp [foldKeysPhase, decodeKeyItem, keyRowOf, objLookup, NewIssuerIdentifier, ih]

/-- A loop step that returns a map accepted the row's first two elements. -/
theorem decodeKeyItem_ok_shape (m m' : List (String × Int)) (row : List JVal)
    (h : decodeKeyItem m row = .ok m') : (keyItemValue row).isSome = true := by
  unfold decodeKeyItem at h
  unfold keyItemValue
  repeat' split at h
  all_goals simp_all

/-- Every row surviving the whole loop was accepted by the loop. -/
theorem foldKeysPhase_ok_all (rows : List (List JVal)) (m0 m : List (String × Int))
    (h : foldKeysPhase rows m0 = .ok m) :
    ∀ row ∈ rows, (keyItemValue row).isSome = true := by
  induction rows generalizing m0 with
  | nil => intro row hr; cases hr
  | cons r0 rows ih =>
      intro row hr
      unfold foldKeysPhase at h
      cases hd : decodeKeyItem m0 r0 with
      | error e => rw [hd] at h; cases h
      | ok m1 =>
          rw [hd] at h
          rcases List.mem_cons.mp hr with hr | hr
          · subst hr
            exact decodeKeyItem_ok_shape m0 m1 _ hd
          · exact ih m1 h row hr

/-- Every element surviving the generic decode yields exactly one row. -/
theorem decodeRowsPhase_mem (items : List JVal) (rows : List (List JVal))
    (h : decodeRowsPhase items = .ok rows) :
    ∀ item ∈ items, ∃ row ∈ rows, asInnerArr item = .ok row := by
  induction items generalizing rows with
  | nil => intro i hi; cases hi
  | cons a items ih =>
      intro i hi
      unfold decodeRowsPhase at h
      cases ha : asInnerArr a with
      | error e => rw [ha] at h; cases h
      | ok ra =>
          rw [ha] at h
          cases hm : decodeRowsPhase items with
          | error e => rw [hm] at h; cases h
          | ok rs =>
              rw [hm] at h
              cases h
              rcases List.mem_cons.mp hi with hi | hi
              · subst hi
                exact ⟨ra, List.mem_cons_self _ _, ha⟩
              · obtain ⟨row, hrow, hok⟩ := ih rs hm i hi
                exact ⟨row, List.mem_cons_of_mem _ hrow, hok⟩

/-- C10 (amended): decoding reconstructs the associative container from every
list of items whose first two elements are an identifier object and a number
— mapping each identifier to its counter, later duplicates overwriting —
with any extra elements beyond the first two silently ignored, and a decode
can only return a container when every item's first two elements have that
shape; an item with fewer than two elements fails the decode by a runtime
panic rather than a returned error. -/
theorem c10_amended_keys_decoding :
    (∀ pes : List ((String × Int) × List JVal),
      UnmarshalJSONKeys (encodeKeys pes) = .ok (buildKeys (pes.map Prod.fst))) ∧
    (∀ (items : List JVal) (m : List (String × Int)),
      UnmarshalJSONKeys (.arr items) = .ok m →
      ∀ item ∈ items, ∃ row, asInnerArr item = .ok row ∧ (keyItemValue row).isSome = true) := by
  constructor
  · intro pes
    have hb : buildKeys (pes.map Prod.fst)
        = pes.foldl (fun acc pe => insertKey acc pe.1.1 pe.1.2) [] := by
      simp [buildKeys, List.foldl_map]
    simp only [UnmarshalJSONKeys, encodeKeys]
    rw [decodeRowsPhase_encoded, hb]
    exact foldKeysPhase_encoded pes []
  · intro items m h item hitem
    simp only [UnmarshalJSONKeys] at h
    cases hr : decodeRowsPhase items with
    | error e => rw [hr] at h; cases h
    | ok rows =>
        rw [hr] at h
        obtain ⟨row, hrow, hok⟩ := decodeRowsPhase_mem items rows hr item hitem
        exact ⟨row, hok, foldKeysPhase_ok_all rows [] m h row hrow⟩

/-- Witness for the amended C10 at a concrete two-item list whose second item
carries an extra third element. -/
theorem c10_amended_keys_decoding_witness :
    UnmarshalJSONKeys (encodeKeys [(("irma-demo.RU", 2), []), (("x", 3), [.num 99])])
      = .ok [("irma-demo.RU", 2), ("x", 3)] ∧
    (∃ row, asInnerArr (encodeKeyItem ("x", 3) [.num 99]) = .ok row ∧
      (keyItemValue row).isSome = true) :=
  ⟨c10_amended_keys_decoding.1 [(("irma-demo.RU", 2), []), (("x", 3), [.num 99])],
    c10_amended_keys_decoding.2
      [encodeKeyItem ("irma-demo.RU", 2) [], encodeKeyItem ("x", 3) [.num 99]]
      [("irma-demo.RU", 2), ("x", 3)] rfl _
      (List.mem_cons_of_mem _ (List.mem_singleton.mpr rfl))⟩

/-- C10 counterexample: a three-element list item — not a two-element pair —
is accepted without any error, its extra element silently ignored, instead
of causing the decode to return an error. -/
theorem c10_counterexample :
    UnmarshalJSONKeys
        (.arr [.arr [.obj [("identifier", .str "irma-demo.RU")], .num 7, .num 99]])
      = .ok [("irma-demo.RU", 7)] :=
  rfl

end Irmago
